import Mathlib

/-!
# Verification of the gbot crawl / match / notify pipeline

Shallow embedding of the deal-crawler subsystem of `github.com/bradykim7/gbot`:
the alert matcher (`AlertMatcher.FindMatchingAlerts`), the notification
dispatcher (`NotificationService.sendProductNotifications` /
`NotifyNewProducts`), the crawl orchestrator (`ImprovedCrawler.Run`), the
per-source rolling success-rate update, and the HTTP fetch primitive
(`BaseCrawler.FetchURL`).

External effects (MongoDB queries, Discord sends) are passed in as oracle
functions; concurrency in the Go code (per-source goroutines, the bounded
product channel, the notification semaphore) is collapsed to a sequential
traversal in source-list order, which is one admissible interleaving —
every property proved here is independent of processing order.
-/

namespace Gbot

/-- Substring containment on character lists: `needle` occurs contiguously in
`hay`.  Mirrors Go's `strings.Contains` (empty needle always matches). -/
def listContainsSub (hay needle : List Char) : Bool :=
  hay.tails.any (fun t => needle.isPrefixOf t)

/-- Go `strings.Contains(hay, needle)`. -/
def strContains (hay needle : String) : Bool :=
  listContainsSub hay.data needle.data

/-- ASCII case folding of one character (`'A'..'Z'` to `'a'..'z'`). -/
def charToLower (c : Char) : Char :=
  if 65 ≤ c.toNat ∧ c.toNat ≤ 90 then Char.ofNat (c.toNat + 32) else c

/-- Go `strings.ToLower` (per-character case folding; the embedding folds
the ASCII range, which agrees with Go on every ASCII input — the case
distinctions in this development are all ASCII). -/
def strToLower (s : String) : String :=
  ⟨s.data.map charToLower⟩

/-- A deal listing (`models.Product`), restricted to the fields the pipeline
under verification reads: title, secondary product name, category, and the
canonical URL used as deduplication key. -/
structure Product where
  title : String
  product : String
  category : String
  url : String
deriving Repr, DecidableEq

/-- A keyword subscription (`models.KeywordAlert`), restricted to the fields
the matcher and dispatcher read. -/
structure KeywordAlert where
  keyword : String
  userID : String
  channelID : String
deriving Repr, DecidableEq

/-! ## Alert matcher (`AlertMatcher.FindMatchingAlerts`, part_003 lines 49-81)

The Go function first loads all alerts with `is_active: true` from Mongo;
`alerts` below is that already-filtered list.  It then builds a lowercased
search text from the product and keeps every alert whose lowercased keyword
is contained in it.  The metadata side-effect writes (`last_notified`,
`notify_count`, product `keywords`) do not affect the returned list and are
not modelled. -/

/-- The normalized search corpus built by `FindMatchingAlerts`:
lowercased title, plus the lowercased product name when it is non-empty and
differs (as a raw string) from the title, plus the lowercased category when
non-empty, joined by single spaces. -/
def searchTextOf (p : Product) : String :=
  let normalizedTitle := strToLower p.title
  let s1 :=
    if p.product ≠ "" ∧ p.product ≠ p.title then
      normalizedTitle ++ " " ++ strToLower p.product
    else normalizedTitle
  if p.category ≠ "" then s1 ++ " " ++ strToLower p.category else s1

/-- `AlertMatcher.FindMatchingAlerts`: keep each active alert whose
lowercased keyword occurs in the search corpus. -/
def FindMatchingAlerts (alerts : List KeywordAlert) (p : Product) :
    List KeywordAlert :=
  alerts.filter (fun a => strContains (searchTextOf p) (strToLower a.keyword))

/-! ## Per-source rolling success rate (`ImprovedCrawler.Run`,
food_repository.go segment lines 526-541 failure path, 552-569 success path)

The stored rate is a float64 in Go; it is embedded as a rational.  Every
value this development evaluates the update at (0, 1, 9/10, 1/10) is exactly
representable in float64 and the corresponding float computations round to
exactly the rational results, so the embedding is faithful at those points:
`1.0*0.9 + 1*0.1` rounds to `1.0` and `1.0*0.9 + 0*0.1` is the double
nearest `0.9`. -/

/-- The success-rate update performed under `statsMutex`:
a stored rate of `0` is treated as "first run" (a success jumps to `1`, a
failure stays `0`); otherwise the new rate is `rate*0.9 + outcome*0.1`. -/
def updateSuccessRate (rate : ℚ) (success : Bool) : ℚ :=
  if success then
    if rate = 0 then 1 else rate * (9/10) + 1 * (1/10)
  else
    if rate = 0 then 0 else rate * (9/10) + 0 * (1/10)

/-! ## Notification dispatcher
(`NotificationService.sendProductNotifications`, part_004 lines 132-202, and
`NotificationService.NotifyNewProducts`, part_004 lines 51-129)

Delivery calls (`session.ChannelMessageSendEmbed`) are abstracted by an
oracle `send : Nat → String → Bool` giving the outcome of the `k`-th call of
this listing's dispatch to a given channel id; the `notified_products`
insert (`markProductNotified`) by a boolean `markOk`.  The rate-limiter wait
and context cancellation are timing behaviour and are not modelled (the
no-cancellation execution is modelled). -/

/-- The error value `sendProductNotifications` returns: Go distinguishes the
"all notifications failed" message from the "x of y notifications failed"
message, but both are non-nil errors to the caller. -/
inductive SendError
  | allFailed
  | partialFailed
deriving Repr, DecidableEq

/-- Loop state of the per-listing delivery loop (part_004 lines 141-172):
`callResults` logs each `ChannelMessageSendEmbed` call (channel id, success)
in order; `sentChannels` is the `sentChannels` map's key set (channels
delivered successfully); `errChannels` is the `channelErrors` map's key set;
`errCount` is `len(notificationErrors)`. -/
structure SendState where
  callResults : List (String × Bool)
  sentChannels : List String
  errChannels : List String
  errCount : Nat
deriving Repr, DecidableEq

def SendState.init : SendState := ⟨[], [], [], 0⟩

/-- Map-key insertion: adding a key already present leaves the key set
unchanged. -/
def insertKey (l : List String) (x : String) : List String :=
  if l.contains x then l else l ++ [x]

/-- The `for _, alert := range alerts` delivery loop: a channel already in
`sentChannels` is skipped; otherwise one delivery call is made, a success
records the channel in `sentChannels`, a failure records it in
`channelErrors` and appends to `notificationErrors`. -/
def sendLoop (send : Nat → String → Bool) :
    List KeywordAlert → SendState → SendState
  | [], st => st
  | a :: rest, st =>
    if st.sentChannels.contains a.channelID then
      sendLoop send rest st
    else
      let ok := send st.callResults.length a.channelID
      let st' : SendState :=
        { st with callResults := st.callResults ++ [(a.channelID, ok)] }
      if ok then
        sendLoop send rest
          { st' with sentChannels := st'.sentChannels ++ [a.channelID] }
      else
        sendLoop send rest
          { st' with errChannels := insertKey st'.errChannels a.channelID,
                     errCount := st'.errCount + 1 }

/-- Result of one listing's dispatch: the final loop state, whether a
NotifiedRecord was written, and the returned error (if any). -/
structure SendOutcome where
  state : SendState
  notifiedWritten : Bool
  result : Option SendError
deriving Repr, DecidableEq

/-- `NotificationService.sendProductNotifications` for one listing:
run the delivery loop over the matching alerts; if at least one channel was
sent successfully, attempt the NotifiedRecord insert (`markProductNotified`,
whose success is `markOk`; its failure appends one more error); return the
all-failed error when the error count equals the alert count, a partial
error when it is positive, and nil otherwise. -/
def sendProductNotifications (send : Nat → String → Bool) (markOk : Bool)
    (alerts : List KeywordAlert) : SendOutcome :=
  if alerts.isEmpty then ⟨.init, false, none⟩
  else
    let st := sendLoop send alerts .init
    let markAttempted := !st.sentChannels.isEmpty
    let errCount :=
      if markAttempted && !markOk then st.errCount + 1 else st.errCount
    let result : Option SendError :=
      if 0 < errCount then
        if errCount = alerts.length then some .allFailed
        else some .partialFailed
      else none
    ⟨{ st with errCount := errCount }, markAttempted && markOk, result⟩

/-- `isProductNotified` (part_004 lines 311-321): the count query against
`notified_products`; a query error is swallowed and reported as
"not notified". -/
def isProductNotified (countRes : Except String Nat) : Bool :=
  match countRes with
  | .error _ => false
  | .ok count => decide (0 < count)

/-- What happened to one listing inside `NotifyNewProducts`. -/
inductive ProductTrace
  | skippedNotified (url : String)
  | matchError (url : String)
  | noMatch (url : String)
  | dispatched (url : String) (outcome : SendOutcome)
deriving Repr, DecidableEq

/-- One listing's processing in `NotifyNewProducts`: skip when already
notified, collect a match error, skip when no alert matches, otherwise
dispatch. -/
def processProduct (notifiedCount : String → Except String Nat)
    (matcher : Product → Except String (List KeywordAlert))
    (send : String → Nat → String → Bool) (markOk : String → Bool)
    (p : Product) : ProductTrace :=
  if isProductNotified (notifiedCount p.url) then .skippedNotified p.url
  else
    match matcher p with
    | .error _ => .matchError p.url
    | .ok alerts =>
      if alerts.isEmpty then .noMatch p.url
      else .dispatched p.url
        (sendProductNotifications (send p.url) (markOk p.url) alerts)

/-- Whether a listing's trace contributed an entry to
`notificationErrors` in `NotifyNewProducts`. -/
def traceHasError : ProductTrace → Bool
  | .matchError _ => true
  | .dispatched _ o => o.result.isSome
  | _ => false

/-- `NotificationService.NotifyNewProducts`: process every listing of the
batch, collecting per-listing errors without stopping; the returned boolean
is `true` iff the Go function returns a non-nil (combined) error. -/
def NotifyNewProducts (notifiedCount : String → Except String Nat)
    (matcher : Product → Except String (List KeywordAlert))
    (send : String → Nat → String → Bool) (markOk : String → Bool)
    (products : List Product) : List ProductTrace × Bool :=
  let traces := products.map (processProduct notifiedCount matcher send markOk)
  (traces, traces.any traceHasError)

/-! ## Crawl orchestrator (`ImprovedCrawler.Run`,
food_repository.go segment lines 488-712)

A cycle is modelled by the per-source crawl outcomes (name plus either an
error or a product batch), a store oracle `check` for the
`CountDocuments` existence query on `products` keyed by URL, an oracle
`insertRes` for the `InsertOne`, and the dispatch outcome `notify`.
Per-source goroutines feeding the bounded channel are collapsed to
source-list order; every claim proved below is order-independent. -/

/-- The per-source work of `Run`: the listing stream drained from
`productChan` (batches of the successful sources, in order). -/
def productStream (sources : List (String × Except String (List Product))) :
    List Product :=
  sources.flatMap (fun s => match s.2 with | .ok ps => ps | .error _ => [])

/-- The errors collected from `errorChan`: one per failed source, with the
`failed to crawl source %s: %w` wrapping. -/
def crawlErrorsOf (sources : List (String × Except String (List Product))) :
    List String :=
  sources.filterMap (fun s =>
    match s.2 with
    | .error e => some ("failed to crawl source " ++ s.1 ++ ": " ++ e)
    | .ok _ => none)

/-- The drain loop of `Run` (lines 609-659): for each listing, an existence
check; a check error or an insert error silently skips the listing
(`continue`), an existing URL skips it, otherwise it is inserted and
appended to `newProducts`.  Returns (newProducts, inserted URLs). -/
def drainProducts (check : String → Except String Nat)
    (insertRes : String → Except String Unit) :
    List Product → List Product × List String
  | [] => ([], [])
  | p :: rest =>
    let prev := drainProducts check insertRes rest
    match check p.url with
    | .error _ => prev
    | .ok count =>
      if 0 < count then prev
      else
        match insertRes p.url with
        | .error _ => prev
        | .ok _ => (p :: prev.1, p.url :: prev.2)

/-- Result of one cycle: the new-listing batch, the URLs inserted, and the
error list whose non-emptiness makes `Run` return a non-nil error. -/
structure CycleOutcome where
  newProducts : List Product
  insertedUrls : List String
  errors : List String
deriving Repr, DecidableEq

/-- `ImprovedCrawler.Run` (statistics updates aside): crawl all sources,
drain and deduplicate the listing stream, dispatch the new listings
(`notify` abstracts `NotifyNewProducts`; its error, if any, joins the crawl
errors), and fail the cycle iff the collected error list is non-empty. -/
def runCycle (sources : List (String × Except String (List Product)))
    (check : String → Except String Nat)
    (insertRes : String → Except String Unit)
    (notify : List Product → Option String) : CycleOutcome :=
  let dp := drainProducts check insertRes (productStream sources)
  let notifyErrs : List String :=
    if dp.1.isEmpty then []
    else
      match notify dp.1 with
      | some e => [e]
      | none => []
  ⟨dp.1, dp.2, crawlErrorsOf sources ++ notifyErrs⟩

/-- Whether `Run` returns a non-nil error (lines 699-709). -/
def cycleFailed (c : CycleOutcome) : Bool :=
  !c.errors.isEmpty

/-! ## Fetch primitive (`BaseCrawler.FetchURL`, base_crawler.go lines 39-115)

Each loop iteration is abstracted by an oracle `att : Nat → AttemptResult`
indexed by the `retries` counter: request construction may fail, the HTTP
round-trip may fail, or a response arrives with a status code and a body
read that may fail.  `time.Sleep(retryWaitDuration)` calls are logged as
millisecond durations. -/

def maxRetries : Nat := 3
def retryWaitMs : Nat := 2000

/-- What one loop iteration of `FetchURL` encounters. -/
inductive AttemptResult
  | reqError (e : String)
  | transportError (e : String)
  | response (status : Nat) (body : Except String (List Nat))
deriving Repr

/-- The terminal error `FetchURL` returns. -/
inductive FetchFailure
  | createRequest (e : String)
  | afterRetriesTransport (e : String)
  | afterRetriesStatus (code : Nat)
  | afterRetriesRead (e : String)
  | loopExit
deriving Repr, DecidableEq

/-- Execution trace of `FetchURL`: number of loop iterations run, the list
of sleep durations performed, and the final outcome. -/
structure FetchTrace where
  attemptsMade : Nat
  sleeps : List Nat
  outcome : Except FetchFailure (List Nat)
deriving Repr

/-- The `for retries < maxRetries` loop, with `fuel = maxRetries - retries`
making the recursion structural.  A request-construction error returns
immediately; a transport error, non-200 status, or body-read error bumps
`retries` and either sleeps 2s and continues or returns the terminal
error wrapping that last cause; a 200 response with a readable body
returns the body. -/
def fetchAux (att : Nat → AttemptResult) :
    Nat → Nat → Nat → List Nat → FetchTrace
  | _, 0, attempts, sleeps => ⟨attempts, sleeps, .error .loopExit⟩
  | retries, fuel + 1, attempts, sleeps =>
    match att retries with
    | .reqError e => ⟨attempts + 1, sleeps, .error (.createRequest e)⟩
    | .transportError e =>
      if retries + 1 < maxRetries then
        fetchAux att (retries + 1) fuel (attempts + 1) (sleeps ++ [retryWaitMs])
      else ⟨attempts + 1, sleeps, .error (.afterRetriesTransport e)⟩
    | .response status body =>
      if status ≠ 200 then
        if retries + 1 < maxRetries then
          fetchAux att (retries + 1) fuel (attempts + 1)
            (sleeps ++ [retryWaitMs])
        else ⟨attempts + 1, sleeps, .error (.afterRetriesStatus status)⟩
      else
        match body with
        | .error e =>
          if retries + 1 < maxRetries then
            fetchAux att (retries + 1) fuel (attempts + 1)
              (sleeps ++ [retryWaitMs])
          else ⟨attempts + 1, sleeps, .error (.afterRetriesRead e)⟩
        | .ok content => ⟨attempts + 1, sleeps, .ok content⟩

/-- `BaseCrawler.FetchURL`: run the loop from `retries = 0`. -/
def FetchURL (att : Nat → AttemptResult) : FetchTrace :=
  fetchAux att 0 maxRetries 0 []

/-- The retryable cause an iteration contributes, and the terminal error it
would produce were it the last attempt; `none` for a successful attempt or
a request-construction error (which aborts without retrying). -/
def terminalOf : AttemptResult → Option FetchFailure
  | .transportError e => some (.afterRetriesTransport e)
  | .response status body =>
    if status ≠ 200 then some (.afterRetriesStatus status)
    else
      match body with
      | .error e => some (.afterRetriesRead e)
      | .ok _ => none
  | .reqError _ => none

/-- Spec-side substring predicate, following the spec's words ("its
normalized keyword is a substring of the corpus"): the needle occurs
contiguously inside the hay.  Compared below with the code's
`strings.Contains` embedding. -/
def SpecIsSubstring (needle hay : String) : Prop :=
  ∃ l r, hay.data = l ++ needle.data ++ r

/-! # Theorems -/

theorem isPrefixOf_iff_exists (l₁ l₂ : List Char) :
    l₁.isPrefixOf l₂ = true ↔ ∃ t, l₂ = l₁ ++ t := by
  induction l₁ generalizing l₂ with
  | nil => simp [List.isPrefixOf]
  | cons a as ih =>
    cases l₂ with
    | nil =>
      simp [List.isPrefixOf]
    | cons b bs =>
      simp only [List.isPrefixOf, Bool.and_eq_true, beq_iff_eq, ih,
        List.cons_append, List.cons.injEq]
      constructor
      · rintro ⟨rfl, t, rfl⟩; exact ⟨t, rfl, rfl⟩
      · rintro ⟨t, rfl, rfl⟩; exact ⟨rfl, t, rfl⟩

theorem listContainsSub_iff (hay needle : List Char) :
    listContainsSub hay needle = true ↔ ∃ l r, hay = l ++ needle ++ r := by
  simp only [listContainsSub, List.any_eq_true]
  constructor
  · rintro ⟨t, ht, hpre⟩
    rw [List.mem_tails] at ht
    obtain ⟨l, rfl⟩ := ht
    obtain ⟨r, rfl⟩ := (isPrefixOf_iff_exists _ _).1 hpre
    exact ⟨l, r, by simp⟩
  · rintro ⟨l, r, rfl⟩
    refine ⟨needle ++ r, ?_, ?_⟩
    · rw [List.mem_tails]
      exact ⟨l, by simp⟩
    · exact (isPrefixOf_iff_exists _ _).2 ⟨r, rfl⟩

theorem strContains_iff (hay needle : String) :
    strContains hay needle = true ↔ SpecIsSubstring needle hay := by
  simp only [strContains, SpecIsSubstring, listContainsSub_iff]

/-- C7: `AlertMatcher.FindMatchingAlerts` returns exactly the active
subscriptions whose case-folded keyword occurs as a substring of the
case-folded corpus (lowercased title, plus lowercased product name when
non-empty and different from the title, plus lowercased category when
non-empty); in particular the keyword "Mon" matches a listing titled
"Monitor deal". -/
theorem claim_C7 :
    (∀ (alerts : List KeywordAlert) (p : Product) (a : KeywordAlert),
      a ∈ FindMatchingAlerts alerts p ↔
        a ∈ alerts ∧ SpecIsSubstring (strToLower a.keyword) (searchTextOf p))
    ∧ FindMatchingAlerts [⟨"Mon", "u1", "c1"⟩] ⟨"Monitor deal", "", "", "u"⟩
        = [⟨"Mon", "u1", "c1"⟩] := by
  constructor
  · intro alerts p a
    simp only [FindMatchingAlerts, List.mem_filter, strContains_iff]
  · decide

/-- C6: the rolling success rate is exactly 0 after a first-run failure,
exactly 1 after a first-run success, exactly 1 after a success on a prior
rate of 1, and exactly 9/10 after a failure on a prior rate of 1. -/
theorem claim_C6 :
    updateSuccessRate 0 false = 0 ∧ updateSuccessRate 0 true = 1
    ∧ updateSuccessRate 1 true = 1 ∧ updateSuccessRate 1 false = 9 / 10 := by
  refine ⟨?_, ?_, ?_, ?_⟩ <;> norm_num [updateSuccessRate]

/-- C5 counterexample: the claimed unconditional EWMA formula fails at a
prior rate of 0 with a success outcome — the code stores 1 (the "first run
succeeded" branch), while `0*0.9 + 1*0.1 = 1/10`. -/
theorem claim_C5_counterexample :
    updateSuccessRate 0 true = 1
    ∧ (0 : ℚ) * (9 / 10) + 1 * (1 / 10) = 1 / 10
    ∧ updateSuccessRate 0 true ≠ (0 : ℚ) * (9 / 10) + 1 * (1 / 10) := by
  refine ⟨?_, ?_, ?_⟩ <;> norm_num [updateSuccessRate]

/-- C5 (amended): the update computes `r*0.9 + o*0.1` only when the prior
rate `r` is non-zero; a zero prior rate is treated as a first run, storing 1
on success and 0 on failure. -/
theorem claim_C5 :
    ∀ (r : ℚ) (o : Bool),
      (r ≠ 0 →
        updateSuccessRate r o = r * (9 / 10) + (if o then (1:ℚ) else 0) * (1 / 10))
      ∧ updateSuccessRate 0 o = (if o then (1:ℚ) else 0) := by
  intro r o
  constructor
  · intro hr
    cases o <;> simp [updateSuccessRate, hr]
  · cases o <;> simp [updateSuccessRate]

theorem claim_C5_witness :
    updateSuccessRate (9 / 10) false = (9 / 10 : ℚ) * (9 / 10) + 0 * (1 / 10) :=
  ((claim_C5 (9 / 10) false).1 (by norm_num)).trans (by norm_num)

/-- C9: a store error during the NotifiedRecord lookup is swallowed —
`isProductNotified` answers `false`, so `NotifyNewProducts` does not skip
the listing: it proceeds to matching and (when alerts match) delivery.  The
idempotence guard fails open on store errors. -/
theorem claim_C9 :
    (∀ e : String, isProductNotified (.error e) = false)
    ∧ ∀ (nc : String → Except String Nat)
        (matcher : Product → Except String (List KeywordAlert))
        (send : String → Nat → String → Bool) (markOk : String → Bool)
        (p : Product) (e : String),
        nc p.url = .error e →
        processProduct nc matcher send markOk p =
          (match matcher p with
           | .error _ => ProductTrace.matchError p.url
           | .ok alerts =>
             if alerts.isEmpty then ProductTrace.noMatch p.url
             else ProductTrace.dispatched p.url
               (sendProductNotifications (send p.url) (markOk p.url) alerts)) := by
  refine ⟨fun e => rfl, ?_⟩
  intro nc matcher send markOk p e h
  simp only [processProduct, h, isProductNotified, if_neg Bool.false_ne_true]

theorem claim_C9_witness :
    processProduct (fun _ => .error "db down") (fun _ => .ok [])
        (fun _ _ _ => true) (fun _ => true) ⟨"t", "", "", "u1"⟩
      = ProductTrace.noMatch "u1" := by
  have h := claim_C9.2 (fun _ => .error "db down") (fun _ => .ok [])
    (fun _ _ _ => true) (fun _ => true) ⟨"t", "", "", "u1"⟩ "db down" rfl
  simpa using h

theorem drainProducts_check_error
    (check : String → Except String Nat)
    (insertRes : String → Except String Unit) (url e : String)
    (h : check url = .error e) (l : List Product) :
    (∀ q ∈ (drainProducts check insertRes l).1, q.url ≠ url)
    ∧ url ∉ (drainProducts check insertRes l).2 := by
  induction l with
  | nil => simp [drainProducts]
  | cons p rest ih =>
    simp only [drainProducts]
    cases hc : check p.url with
    | error e' => simpa using ih
    | ok count =>
      by_cases h0 : 0 < count
      · simpa [h0] using ih
      · simp only [h0, if_false]
        cases hi : insertRes p.url with
        | error e' => simpa using ih
        | ok u =>
          have hne : p.url ≠ url := by
            intro hq
            rw [hq, h] at hc
            exact Except.noConfusion hc
          refine ⟨?_, ?_⟩
          · intro q hq
            rcases List.mem_cons.1 hq with rfl | hq'
            · exact hne
            · exact ih.1 q hq'
          · intro hmem
            rcases List.mem_cons.1 hmem with hq | hq'
            · exact hne hq.symm
            · exact ih.2 hq'

/-- C10: when the duplicate-existence check against the products store
errors for a listing's URL, that listing is silently dropped: no listing
with that URL is inserted or handed to the Notification Dispatcher in the
new-listings batch, and the cycle's error aggregate consists solely of the
per-source crawl errors plus the dispatch error — the store error
contributes nothing to it. -/
theorem claim_C10 :
    ∀ (sources : List (String × Except String (List Product)))
      (check : String → Except String Nat)
      (insertRes : String → Except String Unit)
      (notify : List Product → Option String) (p : Product) (e : String),
      p ∈ productStream sources →
      check p.url = .error e →
      (∀ q ∈ (runCycle sources check insertRes notify).newProducts,
          q.url ≠ p.url)
      ∧ p.url ∉ (runCycle sources check insertRes notify).insertedUrls
      ∧ (runCycle sources check insertRes notify).errors
          = crawlErrorsOf sources
            ++ (if (runCycle sources check insertRes notify).newProducts.isEmpty
                then []
                else
                  match notify (runCycle sources check insertRes notify).newProducts with
                  | some e' => [e']
                  | none => []) := by
  intro sources check insertRes notify p e _ h
  have hd := drainProducts_check_error check insertRes p.url e h
    (productStream sources)
  exact ⟨hd.1, hd.2, rfl⟩

theorem claim_C10_witness :
    (∀ q ∈ (runCycle [("s", .ok [⟨"t", "", "", "u1"⟩])] (fun _ => .error "db")
        (fun _ => .ok ()) (fun _ => some "ne")).newProducts, q.url ≠ "u1")
    ∧ "u1" ∉ (runCycle [("s", .ok [⟨"t", "", "", "u1"⟩])] (fun _ => .error "db")
        (fun _ => .ok ()) (fun _ => some "ne")).insertedUrls := by
  have h := claim_C10 [("s", .ok [⟨"t", "", "", "u1"⟩])] (fun _ => .error "db")
    (fun _ => .ok ()) (fun _ => some "ne") ⟨"t", "", "", "u1"⟩ "db"
    (by decide) rfl
  exact ⟨h.1, h.2.1⟩

/-- C3 counterexample: a cycle in which the single source's crawl fails and
dispatch never reports any failure (no new listings exist, and the dispatch
callback returns no error for any batch) still returns a failure — so an
individual source failure does by itself cause the cycle to return an
error. -/
theorem claim_C3_counterexample :
    cycleFailed (runCycle [("s", Except.error "boom")] (fun _ => Except.ok 0)
      (fun _ => Except.ok ()) (fun _ => none)) = true := by
  decide

/-- C3 (amended): `ImprovedCrawler.Run` returns a failure exactly when some
source's crawl failed or the notification dispatch on a non-empty
new-listings batch reported an error; an individual source failure is
recorded and does not abort the other sources, but it does surface in the
cycle's returned error aggregate rather than remaining a mere warning. -/
theorem claim_C3 :
    ∀ (sources : List (String × Except String (List Product)))
      (check : String → Except String Nat)
      (insertRes : String → Except String Unit)
      (notify : List Product → Option String),
      cycleFailed (runCycle sources check insertRes notify)
        = (!(crawlErrorsOf sources).isEmpty
           || (!(runCycle sources check insertRes notify).newProducts.isEmpty
               && (notify (runCycle sources check insertRes notify).newProducts).isSome)) := by
  intro sources check insertRes notify
  simp only [cycleFailed, runCycle]
  cases hnp : (drainProducts check insertRes (productStream sources)).1 with
  | nil => simp [crawlErrorsOf]
  | cons q qs =>
    cases hn : notify (q :: qs) with
    | none => simp [hn]
    | some err =>
      cases crawlErrorsOf sources <;> simp [hn]

/-- Per-channel success count invariant of the delivery loop: a channel's
successful calls number exactly one when the channel is in `sentChannels`
and zero otherwise. -/
theorem sendLoop_count (send : Nat → String → Bool)
    (alerts : List KeywordAlert) (ch : String) :
    ∀ st : SendState,
      (st.callResults.filter (fun e => e.1 == ch && e.2)).length
        = (if st.sentChannels.contains ch then 1 else 0) →
      ((sendLoop send alerts st).callResults.filter
          (fun e => e.1 == ch && e.2)).length
        = (if (sendLoop send alerts st).sentChannels.contains ch then 1
           else 0) := by
  induction alerts with
  | nil => intro st h; simpa [sendLoop] using h
  | cons a rest ih =>
    intro st h
    simp only [sendLoop]
    by_cases hc : st.sentChannels.contains a.channelID = true
    · simp only [hc, if_true]
      exact ih st h
    · simp only [hc, if_false]
      cases hok : send st.callResults.length a.channelID
      · simp only [Bool.false_eq_true, if_false]
        apply ih
        simpa [List.filter_append] using h
      · simp only [if_true]
        apply ih
        simp only [List.filter_append, List.length_append]
        by_cases hch : a.channelID = ch
        · subst hch
          have hcont : st.sentChannels.contains a.channelID = false :=
            Bool.not_eq_true _ ▸ (by simpa using hc)
          simp only [hcont, if_false] at h
          simp [h, List.elem_iff]
        · have h1 : ((([(a.channelID, true)] : List (String × Bool))).filter
              (fun e => e.1 == ch && e.2)).length = 0 := by
            simp [hch]
          rw [h1, Nat.add_zero, h]
          have hmem : (st.sentChannels ++ [a.channelID]).contains ch
              = st.sentChannels.contains ch := by
            by_cases hin : ch ∈ st.sentChannels
            · simp [List.elem_iff, hin]
            · simp [List.elem_iff, hin, Ne.symm hch]
          rw [hmem]

/-- The delivery loop only appends to the call log. -/
theorem sendLoop_calls_mono (send : Nat → String → Bool)
    (alerts : List KeywordAlert) :
    ∀ (st : SendState) (e : String × Bool), e ∈ st.callResults →
      e ∈ (sendLoop send alerts st).callResults := by
  induction alerts with
  | nil => intro st e he; simpa [sendLoop] using he
  | cons a rest ih =>
    intro st e he
    simp only [sendLoop]
    by_cases hc : st.sentChannels.contains a.channelID = true
    · simp only [hc, if_true]; exact ih st e he
    · simp only [hc, if_false]
      cases hok : send st.callResults.length a.channelID
      · simp only [Bool.false_eq_true, if_false]
        exact ih _ e (by simp [he])
      · simp only [if_true]
        exact ih _ e (by simp [he])

/-- Every alert reaching the delivery loop gets its channel called at least
once (a failed call does not abort the remaining deliveries), provided
every already-sent channel of the entry state has a logged call. -/
theorem sendLoop_covers (send : Nat → String → Bool) :
    ∀ (alerts : List KeywordAlert) (st : SendState),
      (∀ ch, st.sentChannels.contains ch = true →
        ∃ e ∈ st.callResults, e.1 = ch) →
      ∀ a ∈ alerts, ∃ e ∈ (sendLoop send alerts st).callResults,
        e.1 = a.channelID := by
  intro alerts
  induction alerts with
  | nil => intro st _ a ha; exact absurd ha (List.not_mem_nil a)
  | cons b rest ih =>
    intro st hst a ha
    simp only [sendLoop]
    by_cases hc : st.sentChannels.contains b.channelID = true
    · simp only [hc, if_true]
      rcases List.mem_cons.1 ha with rfl | ha'
      · obtain ⟨e, he, hch⟩ := hst a.channelID hc
        exact ⟨e, sendLoop_calls_mono send rest st e he, hch⟩
      · exact ih st hst a ha'
    · simp only [hc, if_false]
      cases hok : send st.callResults.length b.channelID
      · simp only [Bool.false_eq_true, if_false]
        rcases List.mem_cons.1 ha with rfl | ha'
        · refine ⟨(a.channelID, false), ?_, rfl⟩
          exact sendLoop_calls_mono send rest _ _ (by simp)
        · refine ih _ ?_ a ha'
          intro ch hch
          obtain ⟨e, he, h1⟩ := hst ch hch
          exact ⟨e, by simp [he], h1⟩
      · simp only [if_true]
        rcases List.mem_cons.1 ha with rfl | ha'
        · refine ⟨(a.channelID, true), ?_, rfl⟩
          exact sendLoop_calls_mono send rest _ _ (by simp)
        · refine ih _ ?_ a ha'
          intro ch hch
          rcases (List.elem_iff.1 hch : ch ∈ st.sentChannels ++ [b.channelID])
              |> List.mem_append.1 with hin | hin
          · obtain ⟨e, he, h1⟩ := hst ch (List.elem_iff.2 hin)
            exact ⟨e, by simp [he], h1⟩
          · refine ⟨(b.channelID, true), by simp, ?_⟩
            simpa using (List.mem_singleton.1 hin).symm

/-- The loop's error counter counts exactly the failed delivery calls. -/
theorem sendLoop_errCount (send : Nat → String → Bool)
    (alerts : List KeywordAlert) :
    ∀ st : SendState,
      st.errCount = (st.callResults.filter (fun e => !e.2)).length →
      (sendLoop send alerts st).errCount
        = ((sendLoop send alerts st).callResults.filter
            (fun e => !e.2)).length := by
  induction alerts with
  | nil => intro st h; simpa [sendLoop] using h
  | cons a rest ih =>
    intro st h
    simp only [sendLoop]
    by_cases hc : st.sentChannels.contains a.channelID = true
    · simp only [hc, if_true]; exact ih st h
    · simp only [hc, if_false]
      cases hok : send st.callResults.length a.channelID
      · simp only [Bool.false_eq_true, if_false]
        apply ih
        simp [List.filter_append, h]
      · simp only [if_true]
        apply ih
        simp [List.filter_append, h]

/-- A non-empty `sentChannels` is equivalent to the call log containing a
successful call. -/
theorem sendLoop_sent_iff_success (send : Nat → String → Bool)
    (alerts : List KeywordAlert) :
    (sendLoop send alerts SendState.init).sentChannels.isEmpty = false
      ↔ ∃ e ∈ (sendLoop send alerts SendState.init).callResults,
          e.2 = true := by
  have hinv := sendLoop_count send alerts
  constructor
  · intro h
    obtain ⟨ch, hch⟩ : ∃ ch, ch ∈ (sendLoop send alerts SendState.init).sentChannels := by
      cases hl : (sendLoop send alerts SendState.init).sentChannels with
      | nil => rw [hl] at h; simp at h
      | cons x xs => exact ⟨x, by simp [hl]⟩
    have hcount := hinv ch SendState.init (by simp [SendState.init])
    rw [if_pos (List.elem_iff.2 hch)] at hcount
    have : ((sendLoop send alerts SendState.init).callResults.filter
        (fun e => e.1 == ch && e.2)) ≠ [] := by
      intro hnil; rw [hnil] at hcount; simp at hcount
    obtain ⟨e, he⟩ := List.exists_mem_of_ne_nil _ this
    have hmf := List.mem_filter.1 he
    have h2 := hmf.2
    simp only [Bool.and_eq_true, beq_iff_eq] at h2
    exact ⟨e, hmf.1, h2.2⟩
  · rintro ⟨e, he, hsucc⟩
    have hcount := hinv e.1 SendState.init (by simp [SendState.init])
    have hpos : 0 < ((sendLoop send alerts SendState.init).callResults.filter
        (fun e' => e'.1 == e.1 && e'.2)).length := by
      apply List.length_pos.2
      intro hnil
      have : e ∈ (sendLoop send alerts SendState.init).callResults.filter
          (fun e' => e'.1 == e.1 && e'.2) :=
        List.mem_filter.2 ⟨he, by simp [hsucc]⟩
      rw [hnil] at this
      exact List.not_mem_nil e this
    rw [hcount] at hpos
    by_cases hcont : (sendLoop send alerts SendState.init).sentChannels.contains e.1 = true
    · cases hl : (sendLoop send alerts SendState.init).sentChannels with
      | nil => rw [hl] at hcont; simp [List.elem_iff] at hcont
      | cons x xs => simp [hl]
    · rw [if_neg hcont] at hpos; exact absurd hpos (by simp)

/-- When every delivery call succeeds, the channels sent are exactly the
channels of the processed alerts (plus those already sent on entry). -/
theorem sendLoop_allsucc_contains (send : Nat → String → Bool)
    (hsend : ∀ k c, send k c = true) :
    ∀ (alerts : List KeywordAlert) (st : SendState) (ch : String),
      (sendLoop send alerts st).sentChannels.contains ch = true
        ↔ (st.sentChannels.contains ch = true
           ∨ ∃ a ∈ alerts, a.channelID = ch) := by
  intro alerts
  induction alerts with
  | nil => intro st ch; simp [sendLoop]
  | cons a rest ih =>
    intro st ch
    simp only [sendLoop]
    by_cases hc : st.sentChannels.contains a.channelID = true
    · simp only [hc, if_true]
      rw [ih st ch]
      constructor
      · rintro (h | ⟨b, hb, rfl⟩)
        · exact Or.inl h
        · exact Or.inr ⟨b, List.mem_cons_of_mem _ hb, rfl⟩
      · rintro (h | ⟨b, hb, rfl⟩)
        · exact Or.inl h
        · rcases List.mem_cons.1 hb with rfl | hb'
          · exact Or.inl hc
          · exact Or.inr ⟨b, hb', rfl⟩
    · simp only [hc, Bool.false_eq_true, if_false, hsend, if_true]
      rw [ih]
      constructor
      · rintro (h | ⟨b, hb, rfl⟩)
        · rcases List.mem_append.1 (List.elem_iff.1 h) with hin | hin
          · exact Or.inl (List.elem_iff.2 hin)
          · exact Or.inr ⟨a, List.mem_cons_self a rest,
              (List.mem_singleton.1 hin).symm⟩
        · exact Or.inr ⟨b, List.mem_cons_of_mem _ hb, rfl⟩
      · rintro (h | ⟨b, hb, rfl⟩)
        · exact Or.inl (List.elem_iff.2
            (List.mem_append.2 (Or.inl (List.elem_iff.1 h))))
        · rcases List.mem_cons.1 hb with rfl | hb'
          · exact Or.inl (List.elem_iff.2 (List.mem_append.2 (Or.inr (by simp))))
          · exact Or.inr ⟨b, hb', rfl⟩

/-- When every delivery call succeeds, every logged call is a success. -/
theorem sendLoop_allsucc_calls (send : Nat → String → Bool)
    (hsend : ∀ k c, send k c = true) :
    ∀ (alerts : List KeywordAlert) (st : SendState),
      (∀ e ∈ st.callResults, e.2 = true) →
      ∀ e ∈ (sendLoop send alerts st).callResults, e.2 = true := by
  intro alerts
  induction alerts with
  | nil => intro st h; simpa [sendLoop] using h
  | cons a rest ih =>
    intro st h
    simp only [sendLoop]
    by_cases hc : st.sentChannels.contains a.channelID = true
    · simp only [hc, if_true]; exact ih st h
    · simp only [hc, Bool.false_eq_true, if_false, hsend, if_true]
      apply ih
      intro e he
      rcases List.mem_append.1 he with he' | he'
      · exact h e he'
      · obtain rfl := List.mem_singleton.1 he'
        rfl

/-- C1: with the NotifiedRecord store insert succeeding, a NotifiedRecord is
written for the dispatched listing exactly when at least one channel
delivery call succeeded; and whatever the store would answer, when every
delivery call failed (or none was attempted) no NotifiedRecord is
written. -/
theorem claim_C1 :
    ∀ (send : Nat → String → Bool) (alerts : List KeywordAlert),
      ((sendProductNotifications send true alerts).notifiedWritten = true
        ↔ ∃ e ∈ (sendProductNotifications send true alerts).state.callResults,
            e.2 = true)
      ∧ ∀ markOk : Bool,
          (∀ e ∈ (sendProductNotifications send markOk alerts).state.callResults,
            e.2 = false) →
          (sendProductNotifications send markOk alerts).notifiedWritten = false := by
  intro send alerts
  cases hemp : alerts.isEmpty
  · have hkey := sendLoop_sent_iff_success send alerts
    constructor
    · simp only [sendProductNotifications, hemp, Bool.false_eq_true, if_false,
        Bool.and_true, Bool.not_eq_true']
      exact hkey
    · intro markOk hall
      simp only [sendProductNotifications, hemp, Bool.false_eq_true,
        if_false] at hall ⊢
      cases hi : (sendLoop send alerts SendState.init).sentChannels.isEmpty
      · exfalso
        obtain ⟨e, he, htrue⟩ := hkey.1 hi
        have := hall e he
        rw [this] at htrue
        exact Bool.false_ne_true htrue
      · simp [hi]
  · constructor
    · simp [sendProductNotifications, hemp, SendState.init]
    · intro markOk _
      simp [sendProductNotifications, hemp]

theorem claim_C1_witness :
    (sendProductNotifications (fun _ _ => false) false
      [⟨"k1", "u1", "ch1"⟩]).notifiedWritten = false :=
  (claim_C1 (fun _ _ => false) [⟨"k1", "u1", "ch1"⟩]).2 false (by decide)

/-- C2 counterexample: two matching subscriptions share channel "ch1" and
every delivery call fails; the claim's "exactly one
`ChannelMessageSendEmbed` call per channel" is violated — the loop only
skips channels recorded in `sentChannels`, which records successes, so the
failed channel is called a second time for the second subscription. -/
theorem claim_C2_counterexample :
    ((sendProductNotifications (fun _ _ => false) true
        [⟨"k1", "u1", "ch1"⟩, ⟨"k2", "u2", "ch1"⟩]).state.callResults.filter
          (fun e => e.1 == "ch1")).length = 2
    ∧ ((sendProductNotifications (fun _ _ => false) true
        [⟨"k1", "u1", "ch1"⟩, ⟨"k2", "u2", "ch1"⟩]).state.callResults.filter
          (fun e => e.1 == "ch1")).length ≠ 1 := by
  decide

/-- C2 (amended): per dispatched listing and channel, at most one delivery
call ever succeeds (after a success the channel is skipped), and when every
delivery call succeeds exactly one call targets each channel appearing
among the matching subscriptions (none otherwise); a channel whose call
failed may however be called again for a later subscription sharing it. -/
theorem claim_C2 :
    ∀ (send : Nat → String → Bool) (markOk : Bool)
      (alerts : List KeywordAlert) (ch : String),
      (((sendProductNotifications send markOk alerts).state.callResults.filter
          (fun e => e.1 == ch && e.2)).length ≤ 1)
      ∧ ((∀ k c, send k c = true) →
          ((sendProductNotifications send markOk alerts).state.callResults.filter
              (fun e => e.1 == ch)).length
            = (if alerts.any (fun a => a.channelID == ch) then 1 else 0)) := by
  intro send markOk alerts ch
  cases hemp : alerts.isEmpty
  · have hcount := sendLoop_count send alerts ch SendState.init
      (by simp [SendState.init])
    constructor
    · simp only [sendProductNotifications, hemp, Bool.false_eq_true, if_false]
      rw [hcount]
      split <;> omega
    · intro hsend
      simp only [sendProductNotifications, hemp, Bool.false_eq_true, if_false]
      have hall := sendLoop_allsucc_calls send hsend alerts SendState.init
        (by simp [SendState.init])
      have hfe : (sendLoop send alerts SendState.init).callResults.filter
            (fun e => e.1 == ch)
          = (sendLoop send alerts SendState.init).callResults.filter
            (fun e => e.1 == ch && e.2) := by
        apply List.filter_congr
        intro e he
        rw [hall e he, Bool.and_true]
      rw [hfe, hcount]
      have hiff := sendLoop_allsucc_contains send hsend alerts SendState.init ch
      by_cases hex : ∃ a ∈ alerts, a.channelID = ch
      · have h1 : (sendLoop send alerts SendState.init).sentChannels.contains ch
            = true := hiff.2 (Or.inr hex)
        have h2 : alerts.any (fun a => a.channelID == ch) = true := by
          obtain ⟨a, ha, rfl⟩ := hex
          exact List.any_eq_true.2 ⟨a, ha, by simp⟩
        rw [if_pos h1, if_pos h2]
      · have h1 : (sendLoop send alerts SendState.init).sentChannels.contains ch
            ≠ true := by
          intro hco
          rcases hiff.1 hco with hin | hin
          · simp [SendState.init] at hin
          · exact hex hin
        have h2 : alerts.any (fun a => a.channelID == ch) ≠ true := by
          intro hany
          obtain ⟨a, ha, hbe⟩ := List.any_eq_true.1 hany
          exact hex ⟨a, ha, by simpa using hbe⟩
        rw [if_neg h1, if_neg h2]
  · have hnil := List.isEmpty_iff.1 hemp
    subst hnil
    constructor
    · simp [sendProductNotifications, SendState.init]
    · intro _
      simp [sendProductNotifications, SendState.init]

theorem claim_C2_witness :
    ((sendProductNotifications (fun _ _ => true) true
        [⟨"k1", "u1", "ch1"⟩]).state.callResults.filter
          (fun e => e.1 == "ch1")).length = 1 := by
  have h := (claim_C2 (fun _ _ => true) true [⟨"k1", "u1", "ch1"⟩] "ch1").2
    (fun _ _ => rfl)
  simpa using h

/-- C4 counterexample: one listing matches two alerts on channels "ch1" and
"ch2"; the "ch1" delivery succeeds and the "ch2" delivery fails.  Not every
attempted delivery failed (the trace records the successful "ch1" call and
the written NotifiedRecord), yet `NotifyNewProducts` returns a non-nil
combined error — which `ImprovedCrawler.Run` then counts as a cycle
failure. -/
theorem claim_C4_counterexample :
    (NotifyNewProducts (fun _ => .ok 0)
        (fun _ => .ok [⟨"k1", "u1", "ch1"⟩, ⟨"k2", "u2", "ch2"⟩])
        (fun _ k _ => k == 0) (fun _ => true) [⟨"t", "", "", "url1"⟩]).2 = true
    ∧ (NotifyNewProducts (fun _ => .ok 0)
        (fun _ => .ok [⟨"k1", "u1", "ch1"⟩, ⟨"k2", "u2", "ch2"⟩])
        (fun _ k _ => k == 0) (fun _ => true) [⟨"t", "", "", "url1"⟩]).1
      = [ProductTrace.dispatched "url1"
          ⟨⟨[("ch1", true), ("ch2", false)], ["ch1"], ["ch2"], 1⟩, true,
            some SendError.partialFailed⟩] := by
  constructor <;> decide

/-- C4 (amended): individual channel-delivery errors are collected without
aborting the remaining deliveries — every matching subscription's channel
still receives a delivery call — but dispatch returns a non-nil error
whenever at least one delivery call failed or the NotifiedRecord write
failed, partial success included; `NotifyNewProducts` returns a combined
error exactly when some listing's processing collected an error. -/
theorem claim_C4 :
    ∀ (send : Nat → String → Bool) (markOk : Bool)
      (alerts : List KeywordAlert),
      (∀ a ∈ alerts,
        ∃ e ∈ (sendProductNotifications send markOk alerts).state.callResults,
          e.1 = a.channelID)
      ∧ ((sendProductNotifications send markOk alerts).result = none
          ↔ (∀ e ∈ (sendProductNotifications send markOk alerts).state.callResults,
              e.2 = true)
            ∧ ((sendProductNotifications send markOk alerts).state.sentChannels.isEmpty
                = false → markOk = true))
      ∧ ∀ (nc : String → Except String Nat)
          (matcher : Product → Except String (List KeywordAlert))
          (sendF : String → Nat → String → Bool) (markOkF : String → Bool)
          (products : List Product),
          ((NotifyNewProducts nc matcher sendF markOkF products).2 = true
            ↔ ∃ tr ∈ (NotifyNewProducts nc matcher sendF markOkF products).1,
                traceHasError tr = true) := by
  intro send markOk alerts
  refine ⟨?_, ?_, ?_⟩
  · intro a ha
    have hemp : alerts.isEmpty = false := by
      cases alerts with
      | nil => exact absurd ha (List.not_mem_nil a)
      | cons b bs => rfl
    simp only [sendProductNotifications, hemp, Bool.false_eq_true, if_false]
    exact sendLoop_covers send alerts SendState.init
      (by intro ch h; simp [SendState.init, List.elem_iff] at h) a ha
  · cases hemp : alerts.isEmpty
    · simp only [sendProductNotifications, hemp, Bool.false_eq_true, if_false]
      have herr := sendLoop_errCount send alerts SendState.init
        (by simp [SendState.init])
      have hfilter : (sendLoop send alerts SendState.init).errCount = 0
          ↔ ∀ e ∈ (sendLoop send alerts SendState.init).callResults,
              e.2 = true := by
        rw [herr, List.length_eq_zero, List.filter_eq_nil_iff]
        constructor
        · intro h e he; simpa using h e he
        · intro h e he; simp [h e he]
      cases hcond : (!(sendLoop send alerts SendState.init).sentChannels.isEmpty
          && !markOk)
      · simp only [hcond, Bool.false_eq_true, if_false]
        have hside : (sendLoop send alerts SendState.init).sentChannels.isEmpty
            = false → markOk = true := by
          intro hie
          cases hmk : markOk
          · rw [hie, hmk] at hcond; simp at hcond
          · rfl
        constructor
        · intro hres
          refine ⟨?_, hside⟩
          apply hfilter.1
          by_contra hne
          rw [if_pos (Nat.pos_of_ne_zero hne)] at hres
          split at hres <;> exact Option.noConfusion hres
        · rintro ⟨hall, _⟩
          rw [if_neg (by rw [hfilter.2 hall]; omega)]
      · simp only [hcond, if_true]
        constructor
        · intro hres
          rw [if_pos (Nat.succ_pos _)] at hres
          split at hres <;> exact Option.noConfusion hres
        · rintro ⟨_, hmk⟩
          have h1 : (sendLoop send alerts SendState.init).sentChannels.isEmpty
              = false ∧ markOk = false := by simpa using hcond
          have h2 := hmk h1.1
          rw [h1.2] at h2
          exact absurd h2 Bool.false_ne_true
    · simp [sendProductNotifications, hemp, SendState.init]
  · intro nc matcher sendF markOkF products
    simp only [NotifyNewProducts, List.any_eq_true]

theorem claim_C4_witness :
    ∃ e ∈ (sendProductNotifications (fun _ _ => false) true
      [⟨"k1", "u1", "ch1"⟩]).state.callResults, e.1 = "ch1" :=
  (claim_C4 (fun _ _ => false) true [⟨"k1", "u1", "ch1"⟩]).1
    ⟨"k1", "u1", "ch1"⟩ (by decide)

/-- The fetch loop runs at most `fuel` more iterations. -/
theorem fetchAux_attempts_le (att : Nat → AttemptResult) :
    ∀ (fuel retries attempts : Nat) (sleeps : List Nat),
      (fetchAux att retries fuel attempts sleeps).attemptsMade
        ≤ attempts + fuel := by
  intro fuel
  induction fuel with
  | zero => intro retries attempts sleeps; simp [fetchAux]
  | succ fuel ih =>
    intro retries attempts sleeps
    cases hatt : att retries with
    | reqError e => simp [fetchAux, hatt]
    | transportError e =>
      by_cases h : retries + 1 < maxRetries
      · simp only [fetchAux, hatt]
        rw [if_pos h]
        exact le_trans (ih _ _ _) (by omega)
      · simp only [fetchAux, hatt]
        rw [if_neg h]; simp
    | response status body =>
      by_cases hs : status = 200
      · cases body with
        | error e =>
          by_cases h : retries + 1 < maxRetries
          · simp only [fetchAux, hatt, hs, ne_eq, not_true_eq_false, if_false]
            rw [if_pos h]
            exact le_trans (ih _ _ _) (by omega)
          · simp only [fetchAux, hatt, hs, ne_eq, not_true_eq_false, if_false]
            rw [if_neg h]; simp
        | ok content => simp [fetchAux, hatt, hs]
      · by_cases h : retries + 1 < maxRetries
        · simp only [fetchAux, hatt, ne_eq, hs, not_false_eq_true, if_true]
          rw [if_pos h]
          exact le_trans (ih _ _ _) (by omega)
        · simp only [fetchAux, hatt, ne_eq, hs, not_false_eq_true, if_true]
          rw [if_neg h]; simp

/-- Every sleep the fetch loop performs lasts the flat 2000 ms. -/
theorem fetchAux_sleeps (att : Nat → AttemptResult) :
    ∀ (fuel retries attempts : Nat) (sleeps : List Nat),
      ∀ s ∈ (fetchAux att retries fuel attempts sleeps).sleeps,
        s ∈ sleeps ∨ s = retryWaitMs := by
  intro fuel
  induction fuel with
  | zero => intro retries attempts sleeps s hs; exact Or.inl hs
  | succ fuel ih =>
    intro retries attempts sleeps s hs
    have hstep : s ∈ sleeps ++ [retryWaitMs] ∨ s = retryWaitMs →
        s ∈ sleeps ∨ s = retryWaitMs := by
      rintro (hmem | rfl)
      · rcases List.mem_append.1 hmem with h1 | h1
        · exact Or.inl h1
        · exact Or.inr (List.mem_singleton.1 h1)
      · exact Or.inr rfl
    cases hatt : att retries with
    | reqError e =>
      simp only [fetchAux, hatt] at hs
      exact Or.inl hs
    | transportError e =>
      by_cases h : retries + 1 < maxRetries
      · simp only [fetchAux, hatt] at hs
        rw [if_pos h] at hs
        exact hstep (ih _ _ _ s hs)
      · simp only [fetchAux, hatt] at hs
        rw [if_neg h] at hs
        exact Or.inl hs
    | response status body =>
      by_cases hcs : status = 200
      · cases body with
        | error e =>
          by_cases h : retries + 1 < maxRetries
          · simp only [fetchAux, hatt, hcs, ne_eq, not_true_eq_false,
              if_false] at hs
            rw [if_pos h] at hs
            exact hstep (ih _ _ _ s hs)
          · simp only [fetchAux, hatt, hcs, ne_eq, not_true_eq_false,
              if_false] at hs
            rw [if_neg h] at hs
            exact Or.inl hs
        | ok content =>
          simp only [fetchAux, hatt, hcs, ne_eq, not_true_eq_false,
            if_false] at hs
          exact Or.inl hs
      · by_cases h : retries + 1 < maxRetries
        · simp only [fetchAux, hatt, ne_eq, hcs, not_false_eq_true,
            if_true] at hs
          rw [if_pos h] at hs
          exact hstep (ih _ _ _ s hs)
        · simp only [fetchAux, hatt, ne_eq, hcs, not_false_eq_true,
            if_true] at hs
          rw [if_neg h] at hs
          exact Or.inl hs

/-- A successful fetch outcome comes from some attempt within the window
that returned a 200 response with a readable body. -/
theorem fetchAux_ok (att : Nat → AttemptResult) :
    ∀ (fuel retries attempts : Nat) (sleeps : List Nat) (body : List Nat),
      (fetchAux att retries fuel attempts sleeps).outcome = .ok body →
      ∃ k, retries ≤ k ∧ k < retries + fuel
        ∧ att k = .response 200 (.ok body) := by
  intro fuel
  induction fuel with
  | zero =>
    intro retries attempts sleeps body h
    exact absurd h (by simp [fetchAux])
  | succ fuel ih =>
    intro retries attempts sleeps body h
    cases hatt : att retries with
    | reqError e =>
      simp only [fetchAux, hatt] at h
      exact absurd h (by simp)
    | transportError e =>
      by_cases hlt : retries + 1 < maxRetries
      · simp only [fetchAux, hatt] at h
        rw [if_pos hlt] at h
        obtain ⟨k, hk1, hk2, hk3⟩ := ih _ _ _ _ h
        exact ⟨k, by omega, by omega, hk3⟩
      · simp only [fetchAux, hatt] at h
        rw [if_neg hlt] at h
        exact absurd h (by simp)
    | response status rbody =>
      by_cases hcs : status = 200
      · cases rbody with
        | error e =>
          by_cases hlt : retries + 1 < maxRetries
          · simp only [fetchAux, hatt, hcs, ne_eq, not_true_eq_false,
              if_false] at h
            rw [if_pos hlt] at h
            obtain ⟨k, hk1, hk2, hk3⟩ := ih _ _ _ _ h
            exact ⟨k, by omega, by omega, hk3⟩
          · simp only [fetchAux, hatt, hcs, ne_eq, not_true_eq_false,
              if_false] at h
            rw [if_neg hlt] at h
            exact absurd h (by simp)
        | ok content =>
          simp only [fetchAux, hatt, hcs, ne_eq, not_true_eq_false,
            if_false, Except.ok.injEq] at h
          subst hcs
          exact ⟨retries, le_rfl, by omega, by rw [hatt, h]⟩
      · by_cases hlt : retries + 1 < maxRetries
        · simp only [fetchAux, hatt, ne_eq, hcs, not_false_eq_true,
            if_true] at h
          rw [if_pos hlt] at h
          obtain ⟨k, hk1, hk2, hk3⟩ := ih _ _ _ _ h
          exact ⟨k, by omega, by omega, hk3⟩
        · simp only [fetchAux, hatt, ne_eq, hcs, not_false_eq_true,
            if_true] at h
          rw [if_neg hlt] at h
          exact absurd h (by simp)

/-- When every attempt in the window fails retryably, the fetch loop
returns the terminal error built from the last attempt's cause. -/
theorem fetchAux_lastCause (att : Nat → AttemptResult) :
    ∀ (fuel retries attempts : Nat) (sleeps : List Nat),
      retries + fuel = maxRetries → 0 < fuel →
      (∀ k, retries ≤ k → k < maxRetries → (terminalOf (att k)).isSome = true) →
      ∀ f, terminalOf (att (maxRetries - 1)) = some f →
      (fetchAux att retries fuel attempts sleeps).outcome = .error f := by
  intro fuel
  induction fuel with
  | zero =>
    intro retries attempts sleeps _ hpos
    exact absurd hpos (by omega)
  | succ fuel ih =>
    intro retries attempts sleeps hsum _ hall f hlast
    cases hatt : att retries with
    | reqError e =>
      have hsome := hall retries le_rfl (by omega)
      rw [hatt] at hsome
      simp [terminalOf] at hsome
    | transportError e =>
      by_cases hlt : retries + 1 < maxRetries
      · simp only [fetchAux, hatt]
        rw [if_pos hlt]
        exact ih (retries + 1) _ _ (by omega) (by omega)
          (fun k hk1 hk2 => hall k (by omega) hk2) f hlast
      · simp only [fetchAux, hatt]
        rw [if_neg hlt]
        have hr : maxRetries - 1 = retries := by omega
        rw [hr, hatt] at hlast
        simp only [terminalOf, Option.some.injEq] at hlast
        rw [← hlast]
    | response status rbody =>
      by_cases hcs : status = 200
      · cases rbody with
        | error e =>
          by_cases hlt : retries + 1 < maxRetries
          · simp only [fetchAux, hatt, hcs, ne_eq, not_true_eq_false, if_false]
            rw [if_pos hlt]
            exact ih (retries + 1) _ _ (by omega) (by omega)
              (fun k hk1 hk2 => hall k (by omega) hk2) f hlast
          · simp only [fetchAux, hatt, hcs, ne_eq, not_true_eq_false, if_false]
            rw [if_neg hlt]
            have hr : maxRetries - 1 = retries := by omega
            rw [hr, hatt, hcs] at hlast
            simp only [terminalOf, ne_eq, not_true_eq_false, if_false,
              Option.some.injEq] at hlast
            rw [← hlast]
        | ok content =>
          have hsome := hall retries le_rfl (by omega)
          rw [hatt, hcs] at hsome
          simp [terminalOf] at hsome
      · by_cases hlt : retries + 1 < maxRetries
        · simp only [fetchAux, hatt, ne_eq, hcs, not_false_eq_true, if_true]
          rw [if_pos hlt]
          exact ih (retries + 1) _ _ (by omega) (by omega)
            (fun k hk1 hk2 => hall k (by omega) hk2) f hlast
        · simp only [fetchAux, hatt, ne_eq, hcs, not_false_eq_true, if_true]
          rw [if_neg hlt]
          have hr : maxRetries - 1 = retries := by omega
          rw [hr, hatt] at hlast
          simp only [terminalOf, ne_eq, hcs, not_false_eq_true, if_true,
            Option.some.injEq] at hlast
          rw [← hlast]


/-- C8: `BaseCrawler.FetchURL` makes at most 3 attempts; every sleep
between attempts is the flat 2000 ms (no jitter, no exponential growth); a
success can only come from an attempt inside the 3-attempt budget that
returned a readable 200 response (never after the budget is spent); and
when all 3 attempts fail with a retryable cause (transport error, non-200
status, or body-read failure), the returned terminal error carries the last
attempt's cause. -/
theorem claim_C8 :
    ∀ att : Nat → AttemptResult,
      (FetchURL att).attemptsMade ≤ maxRetries
      ∧ (∀ s ∈ (FetchURL att).sleeps, s = retryWaitMs)
      ∧ (∀ body, (FetchURL att).outcome = .ok body →
          ∃ k, k < maxRetries ∧ att k = .response 200 (.ok body))
      ∧ ((∀ k, k < maxRetries → (terminalOf (att k)).isSome = true) →
          ∀ f, terminalOf (att (maxRetries - 1)) = some f →
          (FetchURL att).outcome = .error f) := by
  intro att
  refine ⟨?_, ?_, ?_, ?_⟩
  · simpa using fetchAux_attempts_le att maxRetries 0 0 []
  · intro s hs
    rcases fetchAux_sleeps att maxRetries 0 0 [] s hs with h | h
    · exact absurd h (List.not_mem_nil s)
    · exact h
  · intro body h
    obtain ⟨k, _, hk2, hk3⟩ := fetchAux_ok att maxRetries 0 0 [] body h
    exact ⟨k, by simpa using hk2, hk3⟩
  · intro hall f hf
    exact fetchAux_lastCause att maxRetries 0 0 [] (by omega)
      (by norm_num [maxRetries]) (fun k _ hk => hall k hk) f hf

theorem claim_C8_witness :
    (FetchURL (fun _ => AttemptResult.transportError "conn refused")).outcome
      = .error (.afterRetriesTransport "conn refused")
    ∧ ∀ s ∈ (FetchURL
        (fun _ => AttemptResult.transportError "conn refused")).sleeps,
        s = retryWaitMs := by
  constructor
  · exact (claim_C8 (fun _ => .transportError "conn refused")).2.2.2
      (fun k _ => rfl) _ rfl
  · exact (claim_C8 (fun _ => .transportError "conn refused")).2.1

end Gbot
